import Mathlib

/-
Verification of the LED track puzzle engine
(src/Arduino_LED-Track-Puzzle/Arduino_LED-Track-Puzzle.ino).

The engine animates "particles" along a branching track of addressable
LEDs.  This file is a shallow embedding of the engine: the particle
struct, the topology table `ledTrack`, the branch resolver (the four
switch-point conditionals in `loop`), the motion/death step, the
renderer `setLEDs` (modelled as the list of (led index, brightness)
contributions it makes), the scoring update, and the per-tick step.

Modelling notes, all stated against the source:
- `position` is declared `unsigned int` (16-bit on the target), so the
  advance `position += speed` is taken modulo 2^16.
- `speed` and `track` are declared `int`, but the only values the
  program ever stores in them are the non-negative constants 0 (setup),
  1 (spawn) for speed, and 0..4 for track, so they are carried as Nat.
- `ledTrack` is `const unsigned int` with `-1` entries denoting "beyond
  the end of the track"; comparisons in the source are against `-1`
  (which wraps to the same bit pattern), so entries are carried as Int
  with the literal -1 and compared to -1 exactly as the source does.
- Out-of-bounds array reads have no defined C semantics; the lookup
  `ledTrackAt` returns -1 beyond the stored 5 x 40 table.  The proved
  reachability invariant shows the engine never consults an index
  outside the table, so this default is never observable.
- `digitalRead`, `millis`/spawn timing and `random(0,5)` are external
  inputs; a tick consumes one `Inputs` record carrying them.
- `onSolve` is `while(true) { ... }` and never returns; a tick that
  calls it is modelled as `none` (control is never yielded back).
- The LED buffer is cleared at the start of every tick and written only
  additively; a particle's render is modelled as its list of
  (led index, brightness value) contributions.  Colour hue/saturation
  are irrelevant to every property here and are omitted.
-/

namespace TrackPuzzle

/-- Source constant: `#define NUM_LEDS 93`. -/
def NUM_LEDS : Nat := 93

/-- Source constant: `#define MAX_NUM_LEDS_PER_TRACK 40`. -/
def MAX_NUM_LEDS_PER_TRACK : Nat := 40

/-- Source constant: `const byte maxParticles = 10`. -/
def maxParticles : Nat := 10

/-- The `Particle` struct, fields in source order. -/
structure Particle where
  type : Nat
  position : Nat
  speed : Nat
  length : Nat
  track : Nat
  alive : Bool
deriving DecidableEq, Repr

/-- The `ledTrack` table: for each of the 5 tracks, the LED strip index
reached at each integer travelled distance; -1 marks "beyond the end of
this track". Transcribed row by row from the source. -/
def ledTrack : List (List Int) :=
  [ [0,  1,  2,  3,  4,  5,  6, 11, 10,  9,  8,  7, 63, 62, 64, 65, 66, 67, 68, 69, 70, 71, 72, 73, 74, 75, 76, 77, 78, 79, 80, 81, 82, 83, 84, 85, 86, -1, -1, -1],
    [0,  1,  2,  3,  4,  5,  6, 11, 10,  9,  8,  7, 63, 62, 61, 60, 59, 58, 57, 56, 55, 54, 53, 52, 51, 92, 91, 90, 89, 88, 87, -1, -1, -1, -1, -1, -1, -1, -1, -1],
    [0,  1,  2,  3,  4,  5,  6, 11, 10,  9,  8,  7, 63, 62, 61, 60, 59, 58, 57, 56, 55, 54, 53, 52, 51, 50, 49, 48, -1, -1, -1, -1, -1, -1, -1, -1, -1, -1, -1, -1],
    [0,  1,  2,  3,  4,  5,  6, 12, 13, 14, 15, 16, 17, 18, 19, 20, 21, 22, 23, 24, -1, -1, -1, -1, -1, -1, -1, -1, -1, -1, -1, -1, -1, -1, -1, -1, -1, -1, -1, -1],
    [0,  1,  2,  3,  4,  5,  6, 12, 13, 14, 15, 16, 17, 18, 19, 25, 26, 27, 28, 29, 30, 31, 32, 33, 34, 35, 36, 37, 38, 39, 40, 41, 42, 43, 44, 45, 46, 47, -1, -1] ]

/-- Lookup `ledTrack[t][d]`.  Beyond the stored table the lookup defaults to the
sentinel -1; the reachability invariant proves the engine only ever
consults indices inside the table. -/
def ledTrackAt (t d : Nat) : Int := (ledTrack.getD t []).getD d (-1)

/-- External inputs consumed by one iteration of `loop`: whether the
spawn timer fired (`millis() > _lastSpawned + _rate`), the value drawn
by `random(0, 5)` at a spawn, and the four `digitalRead(switchPins[i])`
levels. -/
structure Inputs where
  spawnNow : Bool
  entropy : Nat
  sw0 : Bool
  sw1 : Bool
  sw2 : Bool
  sw3 : Bool
deriving DecidableEq, Repr

/-- The four switch-point conditionals of `loop`, applied in source
order to the pre-advance position; each later test reads the track
value left by the earlier ones. -/
def resolveTrackVal (inp : Inputs) (position track : Nat) : Nat :=
  let t0 := if position / 16 = 6 then (if inp.sw0 then 0 else 3) else track
  let t1 := if position / 16 = 13 ∧ t0 < 2 then (if inp.sw1 then 0 else 1) else t0
  let t2 := if position / 16 = 14 ∧ 2 ≤ t1 then (if inp.sw2 then 3 else 4) else t1
  if position / 16 = 24 ∧ t2 = 1 then (if inp.sw3 then 1 else 2) else t2

/-- Branch resolution for one particle (only the track changes). -/
def resolveTrack (inp : Inputs) (p : Particle) : Particle :=
  { p with track := resolveTrackVal inp p.position p.track }

/-- Advance `particlePool[i].position += particlePool[i].speed` on a 16-bit
`unsigned int`. -/
def advance (p : Particle) : Particle :=
  { p with position := (p.position + p.speed) % 65536 }

/-- The index used by the death check at line 262:
`ledTrack[...track][...position/16]` — the raw post-advance
`position / 16`, with no clamping applied. -/
def deathCheckIndex (p : Particle) : Nat := p.position / 16

/-- The death condition of line 262:
`ledTrack[track][position/16] == -1 || position > NUM_LEDS*16`. -/
def hitsEnd (p : Particle) : Bool :=
  decide (ledTrackAt p.track (deathCheckIndex p) = -1) || decide (NUM_LEDS * 16 < p.position)

/-- Clearing the alive flag when the death condition holds. -/
def checkDeath (p : Particle) : Particle :=
  if hitsEnd p then { p with alive := false } else p

/-- The scoring update run when a particle dies (lines 267-275):
increment `score[track]` if the particle's type matches the track it
died on and the score is below 3, decrement it if the type differs and
the score is above 0, otherwise leave the scores unchanged. -/
def scoreUpdate (score : List Int) (ty tr : Nat) : List Int :=
  if ty = tr ∧ score.getD tr 0 < 3 then score.set tr (score.getD tr 0 + 1)
  else if ty ≠ tr ∧ 0 < score.getD tr 0 then score.set tr (score.getD tr 0 - 1)
  else score

/-- Arduino's `constrain(amt, low, high)` macro on unsigned values. -/
def constrainNat (x lo hi : Nat) : Nat :=
  if x < lo then lo else if hi < x then hi else x

/-- The offset computed by the renderer at line 157:
`constrain(p.position/16-n, 0, MAX_NUM_LEDS_PER_TRACK*16-1)`.  Inside
the render loop `n ≤ position/16` holds, so the unsigned subtraction
never wraps and truncated Nat subtraction coincides with it. -/
def renderOffset (position n : Nat) : Nat :=
  constrainNat (position / 16 - n) 0 (MAX_NUM_LEDS_PER_TRACK * 16 - 1)

/-- The brightness value `setLEDs` writes for pixel offset `n` of a
particle whose sub-position phase is `frac = position % 16`. -/
def brightness (frac n len : Nat) : Nat :=
  if n = 0 then frac * 16
  else if n = len then 255 - frac * 16
  else 255

/-- The additive LED contributions made by `setLEDs(p)`: one
`(led index, brightness)` pair per loop iteration whose table lookup is
not the -1 sentinel.  The loop runs `n` from 0 while
`n <= p.length && n <= p.position/16`. -/
def setLEDsContrib (p : Particle) : List (Nat × Nat) :=
  (List.range (min p.length (p.position / 16) + 1)).filterMap fun n =>
    if ledTrackAt p.track (renderOffset p.position n) = -1 then none
    else some ((ledTrackAt p.track (renderOffset p.position n)).toNat,
      brightness (p.position % 16) n p.length)

/-- The render step of `loop` draws a particle only if it is still
alive after the death check. -/
def renderContrib (p : Particle) : List (Nat × Nat) :=
  if p.alive then setLEDsContrib p else []

/-- One slot of the particle loop in `loop`: skip dead slots; otherwise
resolve the track against the switches, advance the position, run the
death check, and on death apply the scoring update. -/
def stepSlot (inp : Inputs) (p : Particle) (score : List Int) : Particle × List Int :=
  if p.alive then
    let p2 := advance (resolveTrack inp p)
    (checkDeath p2, if hitsEnd p2 then scoreUpdate score p2.type p2.track else score)
  else (p, score)

/-- The particle loop over the whole pool, threading the score table
through the slots in order. -/
def stepAll (inp : Inputs) : List Particle → List Int → List Particle × List Int
  | [], score => ([], score)
  | p :: rest, score =>
    let pr := stepSlot inp p score
    let rr := stepAll inp rest pr.2
    (pr.1 :: rr.1, rr.2)

/-- The particle `spawnParticle` writes into the first dead slot:
position 0, speed 1, type drawn by `random(0,5)`, length `type + 1`,
track 0, alive. -/
def newParticle (r : Nat) : Particle :=
  { type := r % 5, position := 0, speed := 1, length := r % 5 + 1, track := 0, alive := true }

/-- Function `spawnParticle()`: scan the pool in slot order, reinitialise the
first dead slot and return; if every slot is alive, change nothing. -/
def spawnPool (r : Nat) : List Particle → List Particle
  | [] => []
  | p :: rest => if p.alive then p :: spawnPool r rest else newParticle r :: rest

/-- The spawn-timer gate at the top of `loop`. -/
def spawnPhase (inp : Inputs) (pool : List Particle) : List Particle :=
  if inp.spawnNow then spawnPool inp.entropy pool else pool

/-- The engine state that survives between iterations of `loop`: the
particle pool and the per-track score table.  (The LED buffer is
cleared at the start of every tick and is not part of the persistent
state.) -/
structure EngineState where
  pool : List Particle
  score : List Int
deriving DecidableEq, Repr

/-- The state-updating part of one `loop` iteration: spawn phase, then
the particle loop. -/
def tickCore (st : EngineState) (inp : Inputs) : EngineState :=
  let pool0 := spawnPhase inp st.pool
  let pr := stepAll inp pool0 st.score
  ⟨pr.1, pr.2⟩

/-- The aggregate the solve check sums: `score[0] + ... + score[4]`. -/
def aggScore (score : List Int) : Int :=
  (List.range 5).foldl (fun a i => a + score.getD i 0) 0

/-- The `byte totalScore` accumulator of lines 286-292; iterated byte
addition equals the full sum reduced mod 256. -/
def totalScoreByte (score : List Int) : Nat := ((aggScore score) % 256).toNat

/-- One full iteration of `loop`.  `none` means the iteration called
`onSolve()`, whose `while(true)` body never returns control to the
caller; otherwise the next engine state is produced. -/
def tick (st : EngineState) (inp : Inputs) : Option EngineState :=
  let st2 := tickCore st inp
  if totalScoreByte st2.score = 15 then none else some st2

/-- Iterating `loop` over a list of per-tick inputs; once a tick enters
`onSolve` no further state exists. -/
def runTicks : EngineState → List Inputs → Option EngineState
  | st, [] => some st
  | st, inp :: rest =>
    match tick st inp with
    | none => none
    | some st2 => runTicks st2 rest

/-- A pool slot as `setup()` leaves it: `Particle{0, 0, 0, 0, 0, false}`. -/
def initParticle : Particle := ⟨0, 0, 0, 0, 0, false⟩

/-- The state after `setup()`: ten dead pool slots and all-zero scores. -/
def initState : EngineState := ⟨List.replicate maxParticles initParticle, [0, 0, 0, 0, 0]⟩

/-- States the engine can be in at a tick boundary. -/
inductive Reachable : EngineState → Prop
  | init : Reachable initState
  | step {s s2 : EngineState} (inp : Inputs) :
      Reachable s → tick s inp = some s2 → Reachable s2

/-- For each track, the first offset at which its `ledTrack` row holds
the -1 sentinel. -/
def firstSentinel (t : Nat) : Nat := [37, 31, 28, 20, 38].getD t 0

/-- Invariant satisfied by every alive particle at a tick boundary:
its track is one of the five configured ones, its speed is the fixed
spawn speed 1, and its travelled distance is strictly inside the
non-sentinel prefix of its track's row. -/
def AliveInv (p : Particle) : Prop :=
  p.track < 5 ∧ p.speed = 1 ∧ p.position / 16 < firstSentinel p.track

/-- Per-slot invariant: dead slots are unconstrained. -/
def PInv (p : Particle) : Prop := p.alive = true → AliveInv p

/-- Score invariant: every per-track counter lies in [0, 3]. -/
def SInv (score : List Int) : Prop := ∀ s ∈ score, 0 ≤ s ∧ s ≤ 3

/-- Full engine invariant. -/
def Inv (st : EngineState) : Prop := (∀ p ∈ st.pool, PInv p) ∧ SInv st.score

lemma table_inside : ∀ t < 5, ∀ d < 40,
    (ledTrackAt t d ≠ -1 ↔ d < firstSentinel t) := by decide

lemma table_rows_length : ∀ t < 5, (ledTrack.getD t []).length = 40 := by decide

lemma table_entry_bounds : ∀ t < 5, ∀ d < 40,
    ledTrackAt t d ≠ -1 → 0 ≤ ledTrackAt t d ∧ ledTrackAt t d < 93 := by decide

lemma firstSentinel_le : ∀ t < 5, firstSentinel t ≤ 38 := by decide

lemma ledTrackAt_sentinel_iff (t : Nat) (ht : t < 5) (d : Nat) :
    ledTrackAt t d ≠ -1 ↔ d < firstSentinel t := by
  by_cases hd : d < 40
  · exact table_inside t ht d hd
  · have hrow : (ledTrack.getD t []).length = 40 := table_rows_length t ht
    have hdef : ledTrackAt t d = -1 := by
      unfold ledTrackAt
      exact List.getD_eq_default _ _ (by omega)
    have hfs : firstSentinel t ≤ 38 := firstSentinel_le t ht
    constructor
    · intro h; exact absurd hdef h
    · intro h; omega

lemma ledTrackAt_entry_bounds (t : Nat) (ht : t < 5) (d : Nat)
    (h : ledTrackAt t d ≠ -1) : 0 ≤ ledTrackAt t d ∧ ledTrackAt t d < 93 := by
  by_cases hd : d < 40
  · exact table_entry_bounds t ht d hd h
  · have hrow : (ledTrack.getD t []).length = 40 := table_rows_length t ht
    have hdef : ledTrackAt t d = -1 := by
      unfold ledTrackAt
      exact List.getD_eq_default _ _ (by omega)
    exact absurd hdef h

lemma resolveTrackVal_lt (inp : Inputs) (position track : Nat)
    (h : track < 5) : resolveTrackVal inp position track < 5 := by
  simp only [resolveTrackVal]
  split_ifs <;> omega

lemma resolveTrack_fields (inp : Inputs) (p : Particle) :
    (resolveTrack inp p).position = p.position ∧
    (resolveTrack inp p).speed = p.speed ∧
    (resolveTrack inp p).alive = p.alive ∧
    (resolveTrack inp p).type = p.type := by
  simp [resolveTrack]

lemma advance_fields (p : Particle) :
    (advance p).position = (p.position + p.speed) % 65536 ∧
    (advance p).speed = p.speed ∧ (advance p).track = p.track ∧
    (advance p).alive = p.alive ∧ (advance p).type = p.type := by
  simp [advance]

lemma hitsEnd_false_iff (p : Particle) :
    hitsEnd p = false ↔
      (ledTrackAt p.track (p.position / 16) ≠ -1 ∧ p.position ≤ NUM_LEDS * 16) := by
  simp [hitsEnd, deathCheckIndex, Nat.not_lt]

lemma stepSlot_fst (inp : Inputs) (p : Particle) (score : List Int) :
    (stepSlot inp p score).1 =
      if p.alive then checkDeath (advance (resolveTrack inp p)) else p := by
  unfold stepSlot
  by_cases hal : p.alive = true
  · rw [if_pos hal, if_pos hal]
  · rw [if_neg hal, if_neg hal]

lemma stepSlot_snd (inp : Inputs) (p : Particle) (score : List Int) :
    (stepSlot inp p score).2 =
      if p.alive ∧ hitsEnd (advance (resolveTrack inp p)) then
        scoreUpdate score (advance (resolveTrack inp p)).type
          (advance (resolveTrack inp p)).track
      else score := by
  unfold stepSlot
  by_cases hal : p.alive = true
  · rw [if_pos hal]
    by_cases hend : hitsEnd (advance (resolveTrack inp p)) = true
    · rw [if_pos ⟨hal, hend⟩]
      exact if_pos hend
    · rw [if_neg fun hc => hend hc.2]
      exact if_neg hend
  · rw [if_neg hal, if_neg fun hc => hal hc.1]

lemma checkDeath_pinv (p : Particle) (htr : p.track < 5) (hsp : p.speed = 1) :
    PInv (checkDeath p) := by
  unfold checkDeath
  by_cases hend : hitsEnd p = true
  · rw [if_pos hend]
    intro hcon
    simp at hcon
  · rw [if_neg hend]
    intro _
    have hf : hitsEnd p = false := by simpa using hend
    have hend2 := (hitsEnd_false_iff p).mp hf
    exact ⟨htr, hsp, (ledTrackAt_sentinel_iff _ htr _).mp hend2.1⟩

lemma stepSlot_pinv (inp : Inputs) (p : Particle) (score : List Int)
    (h : PInv p) : PInv (stepSlot inp p score).1 := by
  rw [stepSlot_fst]
  by_cases hal : p.alive = true
  · rw [if_pos hal]
    obtain ⟨htr, hsp, -⟩ := h hal
    have htr2 : (advance (resolveTrack inp p)).track < 5 := by
      simpa [advance, resolveTrack] using resolveTrackVal_lt inp p.position p.track htr
    have hsp2 : (advance (resolveTrack inp p)).speed = 1 := by
      simp [advance, resolveTrack, hsp]
    exact checkDeath_pinv _ htr2 hsp2
  · rw [if_neg hal]
    exact h

lemma sinv_getD (score : List Int) (h : SInv score) (i : Nat) :
    0 ≤ score.getD i 0 ∧ score.getD i 0 ≤ 3 := by
  by_cases hi : i < score.length
  · rw [List.getD_eq_getElem _ _ hi]
    exact h _ (List.getElem_mem hi)
  · rw [List.getD_eq_default _ _ (by omega)]
    omega

lemma scoreUpdate_sinv (score : List Int) (ty tr : Nat) (h : SInv score) :
    SInv (scoreUpdate score ty tr) := by
  have hb := sinv_getD score h tr
  unfold scoreUpdate
  split_ifs with h1 h2
  · intro s hs
    rcases List.mem_or_eq_of_mem_set hs with hs2 | hs2
    · exact h s hs2
    · omega
  · intro s hs
    rcases List.mem_or_eq_of_mem_set hs with hs2 | hs2
    · exact h s hs2
    · omega
  · exact h

lemma stepSlot_sinv (inp : Inputs) (p : Particle) (score : List Int)
    (h : SInv score) : SInv (stepSlot inp p score).2 := by
  rw [stepSlot_snd]
  split_ifs
  · exact scoreUpdate_sinv _ _ _ h
  · exact h

lemma stepAll_sinv (inp : Inputs) (pool : List Particle) (score : List Int)
    (h : SInv score) : SInv (stepAll inp pool score).2 := by
  induction pool generalizing score with
  | nil => exact h
  | cons p rest ih =>
    simp only [stepAll]
    exact ih _ (stepSlot_sinv inp p score h)

lemma stepAll_pinv (inp : Inputs) (pool : List Particle) (score : List Int)
    (h : ∀ p ∈ pool, PInv p) : ∀ q ∈ (stepAll inp pool score).1, PInv q := by
  induction pool generalizing score with
  | nil => intro q hq; simp [stepAll] at hq
  | cons p rest ih =>
    intro q hq
    simp only [stepAll, List.mem_cons] at hq
    rcases hq with hq | hq
    · rw [hq]
      exact stepSlot_pinv inp p score (h p (List.mem_cons_self p rest))
    · exact ih _ (fun r hr => h r (List.mem_cons_of_mem p hr)) q hq

lemma newParticle_pinv (r : Nat) : PInv (newParticle r) := by
  intro _
  refine ⟨by simp [newParticle], by simp [newParticle], ?_⟩
  simp [newParticle, firstSentinel]

lemma spawnPool_pinv (r : Nat) (pool : List Particle)
    (h : ∀ p ∈ pool, PInv p) : ∀ q ∈ spawnPool r pool, PInv q := by
  induction pool with
  | nil => intro q hq; simp [spawnPool] at hq
  | cons p rest ih =>
    intro q hq
    unfold spawnPool at hq
    by_cases hal : p.alive = true
    · rw [if_pos hal] at hq
      rcases List.mem_cons.mp hq with hq | hq
      · exact hq ▸ h p (List.mem_cons_self p rest)
      · exact ih (fun s hs => h s (List.mem_cons_of_mem p hs)) q hq
    · rw [if_neg hal] at hq
      rcases List.mem_cons.mp hq with hq | hq
      · exact hq ▸ newParticle_pinv r
      · exact h q (List.mem_cons_of_mem p hq)

lemma spawnPhase_pinv (inp : Inputs) (pool : List Particle)
    (h : ∀ p ∈ pool, PInv p) : ∀ q ∈ spawnPhase inp pool, PInv q := by
  unfold spawnPhase
  split_ifs
  · exact spawnPool_pinv _ _ h
  · exact h

lemma tickCore_inv (st : EngineState) (inp : Inputs) (h : Inv st) :
    Inv (tickCore st inp) := by
  obtain ⟨hpool, hscore⟩ := h
  constructor
  · exact stepAll_pinv inp _ st.score (spawnPhase_pinv inp st.pool hpool)
  · exact stepAll_sinv inp _ st.score hscore

lemma tick_some_inv (st st2 : EngineState) (inp : Inputs) (h : Inv st)
    (hstep : tick st inp = some st2) : Inv st2 := by
  simp only [tick] at hstep
  split_ifs at hstep
  cases hstep
  exact tickCore_inv st inp h

lemma reachable_inv (st : EngineState) (h : Reachable st) : Inv st := by
  induction h with
  | init =>
    constructor
    · intro p hp
      rw [List.eq_of_mem_replicate hp]
      intro hcon
      simp [initParticle] at hcon
    · intro s hs
      fin_cases hs <;> omega
  | step inp _ hstep ih => exact tick_some_inv _ _ inp ih hstep

/-- Inputs with switch 0 read low and the other switches high; no spawn. -/
def inpLeft : Inputs := ⟨false, 0, false, true, true, true⟩

/-- Inputs with all four switches read high; no spawn. -/
def swAllOn : Inputs := ⟨false, 0, true, true, true, true⟩

/-- Inputs with the spawn timer fired and `random(0,5)` drawing 0. -/
def spawnInp : Inputs := ⟨true, 0, true, true, true, true⟩

/-- A type-4 particle one step short of the end of track 4
(pre-advance distance 607/16 = 37; the row's sentinel is at 38). -/
def dyingP : Particle := ⟨4, 607, 1, 5, 4, true⟩

/-- A state one correct delivery away from the solved aggregate. -/
def solvedSt : EngineState := ⟨dyingP :: List.replicate 9 initParticle, [3, 3, 3, 3, 2]⟩

/-- The state produced by one tick from `initState` with `spawnInp`. -/
def st1 : EngineState :=
  ⟨(⟨0, 1, 1, 1, 0, true⟩ : Particle) :: List.replicate 9 initParticle, [0, 0, 0, 0, 0]⟩

/-- Claim C1, counterexample.  The switch-point at distance 6 does NOT
fire at most once per particle: a particle that entered distance 6 and
had the checkpoint applied on one tick (track set to 3 from a low
switch-0 reading) has the same checkpoint applied again on the very
next tick, because its pre-advance position/16 still equals 6 at speed
1; the second application observably moves it back to track 0. -/
theorem checkpointSixRefires :
    stepSlot inpLeft ⟨0, 96, 1, 1, 0, true⟩ [0, 0, 0, 0, 0] =
      (⟨0, 97, 1, 1, 3, true⟩, [0, 0, 0, 0, 0]) ∧
    stepSlot swAllOn ⟨0, 97, 1, 1, 3, true⟩ [0, 0, 0, 0, 0] =
      (⟨0, 98, 1, 1, 0, true⟩, [0, 0, 0, 0, 0]) := by
  constructor <;> rfl

/-- Claim C1, amended.  Each of the four checkpoints fires on EVERY
tick whose pre-advance position/16 equals its distance and whose track
predicate holds, with no memory of earlier firings: branch resolution
is a pure function of the current position, track and switch readings,
setting the track from the current reading of the checkpoint's switch
(distance 6, no predicate: 0/3 from switch 0; distance 13, track < 2:
0/1 from switch 1; distance 14, track >= 2: 3/4 from switch 2;
distance 24, track = 1: 1/2 from switch 3), and leaving the track
unchanged on a tick matching no checkpoint.  With speed 1 a matched
checkpoint therefore re-fires on up to 16 consecutive ticks —
idempotently only while its switch reading and its predicate's truth
are unchanged (e.g. the distance-24 checkpoint stops re-firing once a
low switch-3 reading has moved the particle to track 2). -/
theorem checkpointFiresWheneverMatched (inp : Inputs) (p : Particle) :
    (p.position / 16 = 6 → (resolveTrack inp p).track = if inp.sw0 then 0 else 3) ∧
    (p.position / 16 = 13 → p.track < 2 →
      (resolveTrack inp p).track = if inp.sw1 then 0 else 1) ∧
    (p.position / 16 = 14 → 2 ≤ p.track →
      (resolveTrack inp p).track = if inp.sw2 then 3 else 4) ∧
    (p.position / 16 = 24 → p.track = 1 →
      (resolveTrack inp p).track = if inp.sw3 then 1 else 2) ∧
    (p.position / 16 ≠ 6 → p.position / 16 ≠ 13 → p.position / 16 ≠ 14 →
      p.position / 16 ≠ 24 → (resolveTrack inp p).track = p.track) := by
  refine ⟨?_, ?_, ?_, ?_, ?_⟩
  · intro h
    simp [resolveTrack, resolveTrackVal, h]
  · intro h htr
    simp [resolveTrack, resolveTrackVal, h, htr]
  · intro h htr
    simp [resolveTrack, resolveTrackVal, h, htr]
  · intro h htr
    simp [resolveTrack, resolveTrackVal, h, htr]
  · intro h6 h13 h14 h24
    simp [resolveTrack, resolveTrackVal, h6, h13, h14, h24]

/-- Witness for `checkpointFiresWheneverMatched` at concrete particles
sitting on the unpredicated distance-6 checkpoint and on the
predicated distance-24 checkpoint (track 1, position 384/16 = 24). -/
theorem checkpointFiresWitness :
    ((resolveTrack inpLeft ⟨0, 96, 1, 1, 0, true⟩).track = if inpLeft.sw0 then 0 else 3) ∧
    ((resolveTrack inpLeft ⟨0, 384, 1, 1, 1, true⟩).track = if inpLeft.sw3 then 1 else 2) :=
  ⟨(checkpointFiresWheneverMatched inpLeft ⟨0, 96, 1, 1, 0, true⟩).1 rfl,
   (checkpointFiresWheneverMatched inpLeft ⟨0, 384, 1, 1, 1, true⟩).2.2.2.1 rfl rfl⟩

/-- Claim C2, counterexample.  Offsets are NOT clamped to the valid
index range [0, MAX_NUM_LEDS_PER_TRACK-1] = [0, 39] before lookup: the
renderer's `constrain` at line 157 uses the upper bound
MAX_NUM_LEDS_PER_TRACK*16-1 = 639, so an offset of 100 passes through
unclamped, and the death-check lookup at line 262 uses the raw
position/16 with no clamp at all (also 100 here). -/
theorem renderOffsetNotClampedToRow :
    renderOffset 1600 0 = 100 ∧
    ¬(renderOffset 1600 0 ≤ MAX_NUM_LEDS_PER_TRACK - 1) ∧
    deathCheckIndex ⟨0, 1600, 1, 1, 0, true⟩ = 100 ∧
    ¬(deathCheckIndex ⟨0, 1600, 1, 1, 0, true⟩ ≤ MAX_NUM_LEDS_PER_TRACK - 1) := by
  constructor
  · rfl
  refine ⟨by decide, rfl, by decide⟩

/-- Claim C2, amended.  The renderer clamps each offset only to
[0, MAX_NUM_LEDS_PER_TRACK*16-1] (and never above the particle's own
position/16, since the loop keeps n at most position/16), and the
death-check lookup applies no clamp; both lookups stay inside the row
bound 39 exactly when position/16 is at most 39 — which the
reachability invariant guarantees for every lookup the engine actually
performs. -/
theorem renderOffsetClampBounds (position n : Nat) :
    renderOffset position n ≤ MAX_NUM_LEDS_PER_TRACK * 16 - 1 ∧
    renderOffset position n ≤ position / 16 ∧
    (position / 16 ≤ MAX_NUM_LEDS_PER_TRACK - 1 →
      renderOffset position n ≤ MAX_NUM_LEDS_PER_TRACK - 1) := by
  have hsub : position / 16 - n ≤ position / 16 := Nat.sub_le _ _
  unfold renderOffset constrainNat MAX_NUM_LEDS_PER_TRACK
  split_ifs <;> omega

/-- Witness for `renderOffsetClampBounds` at a concrete in-range
position. -/
theorem renderOffsetClampWitness :
    renderOffset 96 0 ≤ MAX_NUM_LEDS_PER_TRACK - 1 :=
  (renderOffsetClampBounds 96 0).2.2 (by decide)

/-- Claim C3.  In every reachable engine state, every per-track score
counter lies in [0, 3]: starting from the all-zero scores of `setup`,
no sequence of ticks (with their deaths and scoring updates) can drive
a counter negative or above the maximum 3. -/
theorem scoreBoundsInvariant (st : EngineState) (h : Reachable st) (t : Nat) :
    0 ≤ st.score.getD t 0 ∧ st.score.getD t 0 ≤ 3 :=
  sinv_getD st.score (reachable_inv st h).2 t

/-- Witness for `scoreBoundsInvariant` at the initial state and track 3. -/
theorem scoreBoundsWitness :
    0 ≤ initState.score.getD 3 0 ∧ initState.score.getD 3 0 ≤ 3 :=
  scoreBoundsInvariant initState Reachable.init 3

lemma getD_set_ne (l : List Int) (i j : Nat) (h : j ≠ i) (a : Int) :
    (l.set i a).getD j 0 = l.getD j 0 := by
  rw [List.getD_eq_getElem?_getD, List.getD_eq_getElem?_getD,
    List.getElem?_set_ne (fun he => h he.symm)]

/-- Claim C4.  The scoring update on a particle's death is exactly the
guarded increment/decrement of lines 267-275: increment when the type
matches the death track and the counter is below 3, decrement when the
type differs and the counter is above 0, no change in the two
saturated cases; no other track's counter ever changes; and the score
table is touched by a tick's particle processing exactly when the
particle dies. -/
theorem scoreUpdateExact (score : List Int) (ty tr : Nat) :
    (ty = tr → score.getD tr 0 < 3 →
       scoreUpdate score ty tr = score.set tr (score.getD tr 0 + 1)) ∧
    (ty = tr → ¬score.getD tr 0 < 3 → scoreUpdate score ty tr = score) ∧
    (ty ≠ tr → 0 < score.getD tr 0 →
       scoreUpdate score ty tr = score.set tr (score.getD tr 0 - 1)) ∧
    (ty ≠ tr → ¬0 < score.getD tr 0 → scoreUpdate score ty tr = score) ∧
    (∀ t, t ≠ tr → (scoreUpdate score ty tr).getD t 0 = score.getD t 0) ∧
    (∀ inp p s, p.alive = true →
       (stepSlot inp p s).2 =
         if hitsEnd (advance (resolveTrack inp p)) then
           scoreUpdate s (advance (resolveTrack inp p)).type
             (advance (resolveTrack inp p)).track
         else s) := by
  refine ⟨?_, ?_, ?_, ?_, ?_, ?_⟩
  · intro h1 h2
    unfold scoreUpdate
    rw [if_pos ⟨h1, h2⟩]
  · intro h1 h2
    unfold scoreUpdate
    rw [if_neg fun hc => h2 hc.2, if_neg fun hc => hc.1 h1]
  · intro h1 h2
    unfold scoreUpdate
    rw [if_neg fun hc => h1 hc.1, if_pos ⟨h1, h2⟩]
  · intro h1 h2
    unfold scoreUpdate
    rw [if_neg fun hc => h1 hc.1, if_neg fun hc => h2 hc.2]
  · intro t ht
    unfold scoreUpdate
    split_ifs
    · exact getD_set_ne _ _ _ ht _
    · exact getD_set_ne _ _ _ ht _
    · rfl
  · intro inp p s hal
    rw [stepSlot_snd]
    by_cases hend : hitsEnd (advance (resolveTrack inp p)) = true
    · rw [if_pos ⟨hal, hend⟩, if_pos hend]
    · rw [if_neg fun hc => hend hc.2, if_neg hend]

/-- Witness for `scoreUpdateExact`: a correct type-2 arrival on track 2
with the counter at 0 increments it to 1. -/
theorem scoreUpdateWitness : scoreUpdate [0, 0, 0, 0, 0] 2 2 = [0, 0, 1, 0, 0] := by
  have h := (scoreUpdateExact [0, 0, 0, 0, 0] 2 2).1 rfl (by decide)
  exact h.trans (by decide)

lemma aggScore_expand (s : List Int) :
    aggScore s =
      ((((0 + s.getD 0 0) + s.getD 1 0) + s.getD 2 0) + s.getD 3 0) + s.getD 4 0 := rfl

lemma totalByte_eq_iff (s : List Int) (h : SInv s) :
    totalScoreByte s = 15 ↔ aggScore s = 15 := by
  have h0 := sinv_getD s h 0
  have h1 := sinv_getD s h 1
  have h2 := sinv_getD s h 2
  have h3 := sinv_getD s h 3
  have h4 := sinv_getD s h 4
  unfold totalScoreByte
  rw [aggScore_expand]
  omega

/-- Claim C5.  After a tick's deaths are scored, the engine sums the
five per-track counters; from any reachable state the tick hands
control to `onSolve` (modelled as `none`) exactly when that aggregate
equals 3 x 5 = 15, and once that happens no later tick exists, so the
engine never again spawns, branch-resolves, or updates scores — the
transition is taken at most once per run. -/
theorem solvedExactlyAtFifteen (st : EngineState) (h : Reachable st) (inp : Inputs) :
    (tick st inp = none ↔ aggScore (tickCore st inp).score = 15) ∧
    (tick st inp = none → ∀ rest : List Inputs, runTicks st (inp :: rest) = none) := by
  have hs : SInv (tickCore st inp).score := (tickCore_inv st inp (reachable_inv st h)).2
  have hiff := totalByte_eq_iff _ hs
  constructor
  · simp only [tick]
    by_cases hb : totalScoreByte (tickCore st inp).score = 15
    · rw [if_pos hb]
      exact ⟨fun _ => hiff.mp hb, fun _ => rfl⟩
    · rw [if_neg hb]
      exact ⟨fun hc => absurd hc (by simp), fun ha => absurd (hiff.mpr ha) hb⟩
  · intro hnone rest
    simp [runTicks, hnone]

/-- Witness for `solvedExactlyAtFifteen`: from the initial state the
aggregate is 0, so the first tick returns control. -/
theorem solvedWitness : tick initState swAllOn ≠ none := by
  intro hn
  have h := (solvedExactlyAtFifteen initState Reachable.init swAllOn).1.mp hn
  exact absurd h (by decide)

/-- Claim C6, counterexample.  Not every tick yields control back to
the driver: on the tick in which the solved condition is reached (here
a correct type-4 delivery taking the aggregate from 14 to 15), `loop`
calls `onSolve()`, whose `while(true)` body never returns — the tick
produces no successor state. -/
theorem solvedTickNeverYields : tick solvedSt swAllOn = none := by rfl

/-- Claim C6, amended.  Every state-updating operation inside a tick
terminates (the tick body is a total function of the pre-tick state
and inputs), and the tick yields control back to the driver exactly
when the post-update aggregate is not 15; when it is 15, control
passes to `onSolve` and never returns. -/
theorem tickYieldsUnlessSolved (st : EngineState) (inp : Inputs) :
    (totalScoreByte (tickCore st inp).score ≠ 15 → tick st inp = some (tickCore st inp)) ∧
    (totalScoreByte (tickCore st inp).score = 15 → tick st inp = none) := by
  constructor
  · intro h
    simp only [tick]
    rw [if_neg h]
  · intro h
    simp only [tick]
    rw [if_pos h]

/-- Witness for `tickYieldsUnlessSolved` at the initial state. -/
theorem tickYieldsWitness : tick initState swAllOn = some (tickCore initState swAllOn) :=
  (tickYieldsUnlessSolved initState swAllOn).1 (by decide)

/-- Claim C7.  A particle that dies on a tick (its post-advance
position hits the sentinel of its current track, or exceeds
NUM_LEDS*16) contributes nothing to the light buffer on that tick —
the death check runs after the advance and before the render — and a
slot that is already dead is skipped entirely on every later tick, so
a dead particle is never rendered. -/
theorem deadParticleNeverRendered (inp : Inputs) (p : Particle) (score : List Int) :
    (p.alive = true → hitsEnd (advance (resolveTrack inp p)) = true →
       (stepSlot inp p score).1.alive = false ∧
       renderContrib (stepSlot inp p score).1 = []) ∧
    (p.alive = false → stepSlot inp p score = (p, score) ∧ renderContrib p = []) := by
  constructor
  · intro hal hend
    rw [stepSlot_fst, if_pos hal]
    unfold checkDeath
    rw [if_pos hend]
    exact ⟨rfl, by simp [renderContrib]⟩
  · intro hal
    constructor
    · unfold stepSlot
      rw [if_neg (by simp [hal])]
    · simp [renderContrib, hal]

/-- Witness for `deadParticleNeverRendered`: the type-4 particle dying
at the end of track 4 is killed before rendering and contributes no
LED writes. -/
theorem deadParticleWitness :
    (stepSlot swAllOn dyingP [3, 3, 3, 3, 2]).1.alive = false ∧
    renderContrib (stepSlot swAllOn dyingP [3, 3, 3, 3, 2]).1 = [] :=
  (deadParticleNeverRendered swAllOn dyingP [3, 3, 3, 3, 2]).1 rfl (by decide)

lemma spawnPool_noop (r : Nat) (pool : List Particle)
    (h : ∀ p ∈ pool, p.alive = true) : spawnPool r pool = pool := by
  induction pool with
  | nil => rfl
  | cons p rest ih =>
    unfold spawnPool
    rw [if_pos (h p (List.mem_cons_self p rest))]
    rw [ih fun q hq => h q (List.mem_cons_of_mem p hq)]

lemma spawnPool_firstDead (r : Nat) (pool : List Particle) :
    ∀ (i : Nat) (hi : i < pool.length),
      (∀ j (hj : j < i), (pool.get ⟨j, hj.trans hi⟩).alive = true) →
      (pool.get ⟨i, hi⟩).alive = false →
      spawnPool r pool = pool.set i (newParticle r) := by
  induction pool with
  | nil => intro i hi; simp at hi
  | cons p rest ih =>
    intro i hi hprev hdead
    cases i with
    | zero =>
      unfold spawnPool
      rw [if_neg (by simp [show p.alive = false from hdead])]
      rfl
    | succ k =>
      have hp : p.alive = true := hprev 0 (Nat.succ_pos k)
      have hk : k < rest.length := by simpa using hi
      unfold spawnPool
      rw [if_pos hp]
      rw [ih k hk (fun j hj => hprev (j + 1) (by omega)) hdead]
      rfl

/-- Claim C8.  `spawnParticle` scans the pool in ascending slot order
and claims the first slot whose alive flag is false, writing
position 0, speed 1, a drawn type `r % 5`, length type+1, track 0 and
alive=true into it; when every slot is alive it changes nothing, so
with pool capacity 1 a second spawn before the particle's death is a
no-op. -/
theorem spawnFirstFit (r : Nat) (pool : List Particle) :
    ((∀ p ∈ pool, p.alive = true) → spawnPool r pool = pool) ∧
    (∀ (i : Nat) (hi : i < pool.length),
      (∀ j (hj : j < i), (pool.get ⟨j, hj.trans hi⟩).alive = true) →
      (pool.get ⟨i, hi⟩).alive = false →
      spawnPool r pool = pool.set i ⟨r % 5, 0, 1, r % 5 + 1, 0, true⟩) :=
  ⟨spawnPool_noop r pool, spawnPool_firstDead r pool⟩

/-- Witness for `spawnFirstFit`: a capacity-1 pool whose only slot is
alive drops the spawn request. -/
theorem spawnFirstFitWitness :
    spawnPool 7 [(⟨0, 5, 1, 1, 0, true⟩ : Particle)] = [(⟨0, 5, 1, 1, 0, true⟩ : Particle)] :=
  (spawnFirstFit 7 [⟨0, 5, 1, 1, 0, true⟩]).1 fun p hp => by
    rw [List.mem_singleton.mp hp]

lemma brightness_le (frac n len : Nat) (h : frac < 16) :
    brightness frac n len ≤ 255 := by
  unfold brightness
  split_ifs <;> omega

/-- Claim C9.  With sub-position phase frac = position mod 16, the
brightness written for the leading edge (offset 0) is frac*16, at most
240; the brightness for the trailing edge (offset = length, for the
spawned lengths 1..5) is 255 - frac*16, at most 255; every interior
offset gets exactly 255; and every brightness value the renderer emits
is within [0, 255]. -/
theorem brightnessValues (position len n : Nat) :
    (brightness (position % 16) 0 len = (position % 16) * 16 ∧ (position % 16) * 16 ≤ 240) ∧
    (1 ≤ len → brightness (position % 16) len len = 255 - (position % 16) * 16 ∧
       255 - (position % 16) * 16 ≤ 255) ∧
    (0 < n → n < len → brightness (position % 16) n len = 255) ∧
    brightness (position % 16) n len ≤ 255 ∧
    (∀ p : Particle, ∀ c ∈ setLEDsContrib p, c.2 ≤ 255) := by
  have hf : position % 16 < 16 := Nat.mod_lt _ (by omega)
  refine ⟨⟨?_, by omega⟩, ?_, ?_, brightness_le _ _ _ hf, ?_⟩
  · unfold brightness
    rw [if_pos rfl]
  · intro hlen
    constructor
    · unfold brightness
      rw [if_neg (by omega), if_pos rfl]
    · omega
  · intro h1 h2
    unfold brightness
    rw [if_neg (by omega), if_neg (by omega)]
  · intro p c hc
    unfold setLEDsContrib at hc
    rw [List.mem_filterMap] at hc
    obtain ⟨m, _, heq⟩ := hc
    split_ifs at heq
    cases heq
    exact brightness_le _ _ _ (Nat.mod_lt _ (by omega))

/-- Witness for `brightnessValues`: an interior pixel of a length-2
particle is fully lit. -/
theorem brightnessWitness : brightness (23 % 16) 1 2 = 255 :=
  (brightnessValues 23 2 1).2.2.1 (by decide) (by decide)

lemma checkDeath_track (p : Particle) : (checkDeath p).track = p.track := by
  unfold checkDeath
  split_ifs <;> rfl

lemma checkDeath_position (p : Particle) : (checkDeath p).position = p.position := by
  unfold checkDeath
  split_ifs <;> rfl

/-- Claim C10.  Under the compiled-in configuration, every alive
particle in every reachable state travels a track in {0,...,4} with
position/16 strictly below that track's first sentinel offset; hence
on the next tick, for any switch readings, the death-check index into
the topology table is at most 39, the renderer's offsets are at most
39, every LED-buffer index produced by the table is below NUM_LEDS,
and the fallback death condition `position > NUM_LEDS*16` is never
true, so it is never what kills a particle. -/
theorem reachableIndexSafety (st : EngineState) (h : Reachable st) :
    ∀ p ∈ st.pool, p.alive = true →
      p.track < 5 ∧
      p.position / 16 < firstSentinel p.track ∧
      ∀ inp : Inputs,
        deathCheckIndex (advance (resolveTrack inp p)) ≤ MAX_NUM_LEDS_PER_TRACK - 1 ∧
        ¬(NUM_LEDS * 16 < (advance (resolveTrack inp p)).position) ∧
        (∀ m : Nat, renderOffset (advance (resolveTrack inp p)).position m ≤
          MAX_NUM_LEDS_PER_TRACK - 1) ∧
        (∀ c ∈ renderContrib (checkDeath (advance (resolveTrack inp p))), c.1 < NUM_LEDS) := by
  intro p hp hal
  obtain ⟨htr, hsp, hpos⟩ := (reachable_inv st h).1 p hp hal
  have hfs : firstSentinel p.track ≤ 38 := firstSentinel_le _ htr
  refine ⟨htr, hpos, ?_⟩
  intro inp
  have htr2 : (advance (resolveTrack inp p)).track = resolveTrackVal inp p.position p.track := by
    simp [advance, resolveTrack]
  have htr2lt : (advance (resolveTrack inp p)).track < 5 := by
    rw [htr2]
    exact resolveTrackVal_lt inp p.position p.track htr
  have hq : (advance (resolveTrack inp p)).position = (p.position + p.speed) % 65536 := by
    simp [advance, resolveTrack]
  have hple : p.position ≤ 607 := by omega
  have hq2 : (advance (resolveTrack inp p)).position = p.position + 1 := by
    rw [hq, hsp]
    omega
  refine ⟨?_, ?_, ?_, ?_⟩
  · unfold deathCheckIndex MAX_NUM_LEDS_PER_TRACK
    omega
  · unfold NUM_LEDS
    omega
  · intro m
    have hsub : (advance (resolveTrack inp p)).position / 16 - m ≤
        (advance (resolveTrack inp p)).position / 16 := Nat.sub_le _ _
    unfold renderOffset constrainNat MAX_NUM_LEDS_PER_TRACK
    split_ifs <;> omega
  · intro c hc
    unfold renderContrib at hc
    split_ifs at hc
    · unfold setLEDsContrib at hc
      rw [List.mem_filterMap] at hc
      obtain ⟨m, _, heq⟩ := hc
      split_ifs at heq with hled
      cases heq
      have htrc : (checkDeath (advance (resolveTrack inp p))).track < 5 := by
        rw [checkDeath_track]
        exact htr2lt
      have hbd := ledTrackAt_entry_bounds _ htrc _ hled
      unfold NUM_LEDS
      omega
    · simp at hc

/-- Witness for `reachableIndexSafety` at the state reached by one
spawning tick from `initState`. -/
theorem indexSafetyWitness :
    (⟨0, 1, 1, 1, 0, true⟩ : Particle).track < 5 ∧
    (⟨0, 1, 1, 1, 0, true⟩ : Particle).position / 16 <
      firstSentinel (⟨0, 1, 1, 1, 0, true⟩ : Particle).track := by
  have h := reachableIndexSafety st1 (Reachable.step spawnInp Reachable.init (by rfl))
    ⟨0, 1, 1, 1, 0, true⟩ (List.mem_cons_self _ _) rfl
  exact ⟨h.1, h.2.1⟩

end TrackPuzzle
